import Mathlib

/-!
# Ownership handles for cgroups and jails

A shallow embedding of `src/libutil/linux/include/nix/util/cgroup.hh` and
`src/libutil/freebsd/include/nix/util/freebsd-jail.hh`.

* A `std::filesystem::path` is a `String`; `path::empty()` is `String.isEmpty`.
* A C++ `int` is an `Int` (no arithmetic is performed on jail ids).
* A member function that mutates `*this` returns the new value of the object;
  one that mutates two objects returns the pair of new values.
* The kernel is an explicit state `Kernel`, threaded through every function that
  can reach a kernel primitive. Every invocation of a destruction primitive is
  appended to `Kernel.log`, so "no kernel operation" is "the kernel state,
  log included, is unchanged".
* Functions whose bodies live in the `.cc` files (not part of the headers) are
  modelled from the specification; each such definition says so.
-/

namespace Nix

/-! ## Kernel model -/

/-- Accounting sample `CgroupStats` (cgroup.hh lines 17-20): user and system CPU
time in microseconds, each of them optional. -/
structure CgroupStats where
  cpuUser : Option Nat
  cpuSystem : Option Nat
deriving DecidableEq

/-- The value-initialised `CgroupStats` (both fields `std::nullopt`). -/
def CgroupStats.none : CgroupStats := { cpuUser := Option.none, cpuSystem := Option.none }

/-- A destruction request that reaches the kernel. -/
inductive KernelOp where
  | destroyCgroup (cgroup : String)
  | jailRemove (jid : Int)
deriving DecidableEq

/-- Kernel state seen by the handles: the cgroups that exist (with their
accounting records), the jails that exist, the destruction requests that the
kernel refuses (a process that cannot be killed, a removal that fails), and the
log of every destruction request made so far, oldest first. -/
structure Kernel where
  cgroups : List (String × CgroupStats)
  jails : List Int
  refused : List KernelOp
  log : List KernelOp
deriving DecidableEq

/-- Whether the cgroup `cgroup` exists. -/
def Kernel.hasCgroup (k : Kernel) (cgroup : String) : Bool :=
  k.cgroups.any (fun e => e.1 == cgroup)

/-- Whether the jail `jid` exists. -/
def Kernel.hasJail (k : Kernel) (jid : Int) : Bool :=
  k.jails.contains jid

/-- Modelled from the spec: the body of `getCgroupStats` (declared at cgroup.hh
line 25) is missing. It reads the accounting records of the given container
and reports a field as unavailable when its record does not exist. -/
def getCgroupStats (cgroup : String) (k : Kernel) : CgroupStats :=
  match k.cgroups.lookup cgroup with
  | some s => s
  | Option.none => CgroupStats.none

/-- Modelled from the spec: the body of `destroyCgroup` (declared at cgroup.hh
line 33) is missing. It kills the members and removes the cgroup, returning the
statistics sampled just before; its postcondition is that the path does not
exist. A request the kernel refuses is a fatal error and removes nothing. Every
call is one kernel operation, recorded in the log. -/
def destroyCgroup (cgroup : String) (k : Kernel) : Except String CgroupStats × Kernel :=
  let k1 : Kernel := { k with log := k.log ++ [KernelOp.destroyCgroup cgroup] }
  if KernelOp.destroyCgroup cgroup ∈ k.refused then
    (Except.error "cgroup could not be destroyed", k1)
  else
    (Except.ok (getCgroupStats cgroup k),
      { k1 with cgroups := k.cgroups.filter (fun e => e.1 != cgroup) })

/-- Modelled from the spec: the jail-removal primitive keyed by the integer id
(a single system call). A request the kernel refuses is an error and removes
nothing. Every call is one kernel operation, recorded in the log. -/
def jailRemove (jid : Int) (k : Kernel) : Except String Unit × Kernel :=
  let k1 : Kernel := { k with log := k.log ++ [KernelOp.jailRemove jid] }
  if KernelOp.jailRemove jid ∈ k.refused then
    (Except.error "jail could not be removed", k1)
  else
    (Except.ok (), { k1 with jails := k.jails.filter (fun j => j != jid) })

/-! ## `AutoDestroyCgroup` (cgroup.hh lines 47-102) -/

/-- The class `AutoDestroyCgroup`: its only data member is `cgroupPath`. -/
structure AutoDestroyCgroup where
  cgroupPath : String
deriving DecidableEq

namespace AutoDestroyCgroup

/-- The defaulted constructor `AutoDestroyCgroup() = default` (line 52): the
path member is default-constructed, that is, empty. -/
def defaultCtor : AutoDestroyCgroup := { cgroupPath := "" }

/-- Modelled from the spec: the body of `AutoDestroyCgroup(std::filesystem::path)`
(declared at line 54) is missing. Constructing from an existing identifier takes
ownership of that identifier. -/
def pathCtor (path : String) : AutoDestroyCgroup := { cgroupPath := path }

/-- The move constructor (lines 59-61): `cgroupPath(std::move(other.cgroupPath))`.
Returns the new object and the state of `other` afterwards. The path move
constructor of the standard library used on Linux (libstdc++) clears its
source, so `other` is left with an empty path. -/
def moveCtor (other : AutoDestroyCgroup) : AutoDestroyCgroup × AutoDestroyCgroup :=
  ({ cgroupPath := other.cgroupPath }, { other with cgroupPath := "" })

/-- The friend function `swap` (lines 69-73): exchanges the two path members.
Returns the new `lhs` and the new `rhs`. -/
def swap (lhs rhs : AutoDestroyCgroup) : AutoDestroyCgroup × AutoDestroyCgroup :=
  ({ lhs with cgroupPath := rhs.cgroupPath }, { rhs with cgroupPath := lhs.cgroupPath })

/-- The move assignment operator (lines 63-67): `swap(*this, other)`.
Returns the new `*this` and the state of `other` afterwards. -/
def moveAssign (self other : AutoDestroyCgroup) : AutoDestroyCgroup × AutoDestroyCgroup :=
  swap self other

/-- The member `cancel` (line 86): `cgroupPath.clear()`. -/
def cancel (self : AutoDestroyCgroup) : AutoDestroyCgroup :=
  { self with cgroupPath := "" }

/-- The member `path` (line 96): returns `cgroupPath`. -/
def path (self : AutoDestroyCgroup) : String := self.cgroupPath

/-- The conversion `explicit operator bool` (line 101): `!cgroupPath.empty()`. -/
def operatorBool (self : AutoDestroyCgroup) : Bool := !self.cgroupPath.isEmpty

/-- Modelled from the spec: the body of `AutoDestroyCgroup::destroy` (declared at
line 81) is missing. On an empty handle it is a no-op. Otherwise it destroys the
owned cgroup through `destroyCgroup`, returns the statistics sampled just before
(or the fatal error of the primitive), and the handle transitions to the empty
state ("After calling this, the destructor won't do anything"). The spec states
this postcondition without exception, so the handle is emptied also when the
primitive reports an error.
Returns the outcome, the handle afterwards and the kernel afterwards. -/
def destroy (self : AutoDestroyCgroup) (k : Kernel) :
    Except String CgroupStats × AutoDestroyCgroup × Kernel :=
  if self.cgroupPath.isEmpty then
    (Except.ok CgroupStats.none, self, k)
  else
    let r := destroyCgroup self.cgroupPath k
    (r.1, { self with cgroupPath := "" }, r.2)

/-- Modelled from the spec: the body of `~AutoDestroyCgroup` (declared at line 75)
is missing. On scope exit, if the handle owns an identifier, `destroy` is
invoked; any error raised by it is caught and suppressed. The result is the
kernel afterwards (the object is gone). -/
def destructor (self : AutoDestroyCgroup) (k : Kernel) : Kernel :=
  if self.cgroupPath.isEmpty then k else (self.destroy k).2.2

/-- The member `reset` (line 91): `*this = AutoDestroyCgroup()`. A temporary is
default-constructed, move-assigned from, and destroyed at the end of the full
expression. Returns the handle afterwards and the kernel afterwards. -/
def reset (self : AutoDestroyCgroup) (k : Kernel) : AutoDestroyCgroup × Kernel :=
  let tmp := defaultCtor
  let r := moveAssign self tmp
  (r.1, destructor r.2 k)

/-- A handle owns an identifier when its path is not the empty path. -/
def Owns (self : AutoDestroyCgroup) (x : String) : Prop :=
  x ≠ "" ∧ self.cgroupPath = x

/-- A handle is empty when it owns nothing: its path is the empty path. -/
def IsEmpty (self : AutoDestroyCgroup) : Prop := self.cgroupPath = ""

instance (self : AutoDestroyCgroup) (x : String) : Decidable (self.Owns x) := by
  unfold Owns; infer_instance

instance (self : AutoDestroyCgroup) : Decidable self.IsEmpty := by
  unfold IsEmpty; infer_instance

end AutoDestroyCgroup

/-! ## `AutoRemoveJail` (freebsd-jail.hh lines 8-56) -/

/-- The constant `AutoRemoveJail::INVALID_JAIL` (line 10). -/
def INVALID_JAIL : Int := -1

/-- The class `AutoRemoveJail`: its only data member is `jid`. -/
structure AutoRemoveJail where
  jid : Int
deriving DecidableEq

namespace AutoRemoveJail

/-- Modelled from the spec: the body of `AutoRemoveJail()` (declared at line 13)
is missing. The default constructor produces a handle that owns nothing; the
member initialiser of line 11 gives `jid = INVALID_JAIL`. -/
def defaultCtor : AutoRemoveJail := { jid := INVALID_JAIL }

/-- Modelled from the spec: the body of `AutoRemoveJail(int)` (declared at line 14)
is missing. Constructing from an existing identifier takes ownership of it. -/
def jidCtor (jid : Int) : AutoRemoveJail := { jid := jid }

/-- Modelled from the spec: the body of `AutoRemoveJail::cancel` (declared at
line 55) is missing. It clears the owned identifier without destroying the
resource; the handle is empty afterwards. -/
def cancel (self : AutoRemoveJail) : AutoRemoveJail :=
  { self with jid := INVALID_JAIL }

/-- The move constructor (lines 18-22): `jid(other.jid)`, then `other.cancel()`.
Returns the new object and the state of `other` afterwards. -/
def moveCtor (other : AutoRemoveJail) : AutoRemoveJail × AutoRemoveJail :=
  ({ jid := other.jid }, other.cancel)

/-- The friend function `swap` (lines 30-34): exchanges the two `jid` members.
Returns the new `lhs` and the new `rhs`. -/
def swap (lhs rhs : AutoRemoveJail) : AutoRemoveJail × AutoRemoveJail :=
  ({ lhs with jid := rhs.jid }, { rhs with jid := lhs.jid })

/-- The move assignment operator (lines 24-28): `swap(*this, other)`.
Returns the new `*this` and the state of `other` afterwards. -/
def moveAssign (self other : AutoRemoveJail) : AutoRemoveJail × AutoRemoveJail :=
  swap self other

/-- The conversion `operator int` (lines 36-39): returns `jid`. -/
def operatorInt (self : AutoRemoveJail) : Int := self.jid

/-- Modelled from the spec: the body of `AutoRemoveJail::remove` (declared at
line 50) is missing. It invokes the jail-removal primitive for the owned id (a
no-op on an empty handle) and cancels the handle, "so unmounting is not
attempted a second time by the destructor". The spec states this postcondition
without exception, so the handle is cancelled also when the primitive reports
an error.
Returns the outcome, the handle afterwards and the kernel afterwards. -/
def remove (self : AutoRemoveJail) (k : Kernel) :
    Except String Unit × AutoRemoveJail × Kernel :=
  if self.jid = INVALID_JAIL then
    (Except.ok (), self, k)
  else
    let r := jailRemove self.jid k
    (r.1, self.cancel, r.2)

/-- Modelled from the spec: the body of `~AutoRemoveJail` (declared at line 41)
is missing. "The destructor calls this [`remove`] ignoring any exception." -/
def destructor (self : AutoRemoveJail) (k : Kernel) : Kernel :=
  (self.remove k).2.2

/-- A handle owns a jail identifier when its `jid` is not `INVALID_JAIL`. -/
def Owns (self : AutoRemoveJail) (x : Int) : Prop :=
  x ≠ INVALID_JAIL ∧ self.jid = x

/-- A handle is empty when it owns nothing: its `jid` is `INVALID_JAIL`. -/
def IsEmpty (self : AutoRemoveJail) : Prop := self.jid = INVALID_JAIL

instance (self : AutoRemoveJail) (x : Int) : Decidable (self.Owns x) := by
  unfold Owns; infer_instance

instance (self : AutoRemoveJail) : Decidable self.IsEmpty := by
  unfold IsEmpty; infer_instance

end AutoRemoveJail

/-- The standard boolean conversion of C++ applied to an `int`: zero becomes
`false`, every other value `true`. -/
def intToBool (i : Int) : Bool := i != 0

/-! ## Programs over several handles -/

/-- An operation of a program on its live `AutoDestroyCgroup` objects, which are
numbered by position. -/
inductive CgroupOp where
  | moveConstruct (src : Nat)
  | moveAssign (dst src : Nat)
  | swap (a b : Nat)
  | cancel (i : Nat)
  | reset (i : Nat)
deriving DecidableEq

/-- The live `AutoDestroyCgroup` objects of a program, and the kernel. -/
structure CgroupProgram where
  handles : List AutoDestroyCgroup
  kernel : Kernel
deriving DecidableEq

namespace CgroupProgram

/-- One operation. An operation naming an object that does not exist does
nothing. Move construction adds the new object at the end; the other
operations write back the objects they mutate (when both positions are the
same object the second write is the one that stays, as for `swap(x, x)`). -/
def step (s : CgroupProgram) : CgroupOp → CgroupProgram
  | CgroupOp.moveConstruct src =>
    match s.handles[src]? with
    | some a => { s with handles := s.handles.set src a.moveCtor.2 ++ [a.moveCtor.1] }
    | none => s
  | CgroupOp.moveAssign dst src =>
    match s.handles[dst]?, s.handles[src]? with
    | some b, some a =>
      { s with handles := (s.handles.set dst (b.moveAssign a).1).set src (b.moveAssign a).2 }
    | _, _ => s
  | CgroupOp.swap i j =>
    match s.handles[i]?, s.handles[j]? with
    | some a, some b =>
      { s with handles := (s.handles.set i (a.swap b).1).set j (a.swap b).2 }
    | _, _ => s
  | CgroupOp.cancel i =>
    match s.handles[i]? with
    | some a => { s with handles := s.handles.set i a.cancel }
    | none => s
  | CgroupOp.reset i =>
    match s.handles[i]? with
    | some a => { handles := s.handles.set i (a.reset s.kernel).1, kernel := (a.reset s.kernel).2 }
    | none => s

/-- A sequence of operations, first to last. -/
def run (s : CgroupProgram) (ops : List CgroupOp) : CgroupProgram :=
  ops.foldl step s

end CgroupProgram

/-- The identifiers owned by the given handles, one entry for each owning handle. -/
def ownedCgroups (hs : List AutoDestroyCgroup) : List String :=
  (hs.map (fun h => h.cgroupPath)).filter (fun x => x ≠ "")

/-- An operation of a program on its live `AutoRemoveJail` objects, which are
numbered by position (the class has no `reset`). -/
inductive JailOp where
  | moveConstruct (src : Nat)
  | moveAssign (dst src : Nat)
  | swap (a b : Nat)
  | cancel (i : Nat)
deriving DecidableEq

/-- The live `AutoRemoveJail` objects of a program, and the kernel. -/
structure JailProgram where
  handles : List AutoRemoveJail
  kernel : Kernel
deriving DecidableEq

namespace JailProgram

/-- One operation, as for `CgroupProgram.step`. -/
def step (s : JailProgram) : JailOp → JailProgram
  | JailOp.moveConstruct src =>
    match s.handles[src]? with
    | some a => { s with handles := s.handles.set src a.moveCtor.2 ++ [a.moveCtor.1] }
    | none => s
  | JailOp.moveAssign dst src =>
    match s.handles[dst]?, s.handles[src]? with
    | some b, some a =>
      { s with handles := (s.handles.set dst (b.moveAssign a).1).set src (b.moveAssign a).2 }
    | _, _ => s
  | JailOp.swap i j =>
    match s.handles[i]?, s.handles[j]? with
    | some a, some b =>
      { s with handles := (s.handles.set i (a.swap b).1).set j (a.swap b).2 }
    | _, _ => s
  | JailOp.cancel i =>
    match s.handles[i]? with
    | some a => { s with handles := s.handles.set i a.cancel }
    | none => s

/-- A sequence of operations, first to last. -/
def run (s : JailProgram) (ops : List JailOp) : JailProgram :=
  ops.foldl step s

end JailProgram

/-- The jail identifiers owned by the given handles, one entry for each owning handle. -/
def ownedJails (hs : List AutoRemoveJail) : List Int :=
  (hs.map (fun h => h.jid)).filter (fun x => x ≠ INVALID_JAIL)

/-! ## Hierarchy discovery (cgroup.hh lines 35-42) -/

/-- The part of the process state that hierarchy discovery reads and writes: the
cgroup the process belongs to according to its membership record (a `CanonPath`,
here a `String`), and the process-wide storage of `getRootCgroup`, which holds
nothing until the first call. -/
structure Process where
  membership : String
  rootCgroup : Option String
deriving DecidableEq

/-- A process that has not called `getRootCgroup` yet. -/
def Process.start (membership : String) : Process :=
  { membership := membership, rootCgroup := none }

/-- Modelled from the spec: the body of `getCurrentCgroup` (declared at cgroup.hh
line 35) is missing. It determines the container the calling process currently
belongs to by reading its membership record; a pure query, nothing is cached. -/
def getCurrentCgroup (p : Process) : String := p.membership

/-- Modelled from the spec: the body of `getRootCgroup` (declared at cgroup.hh
line 42) is missing. The first call captures the result of `getCurrentCgroup` and
stores it in process-wide state initialised on first use; later calls return
the stored value. Returns the value and the process state afterwards. -/
def getRootCgroup (p : Process) : String × Process :=
  match p.rootCgroup with
  | some root => (root, p)
  | none => (getCurrentCgroup p, { p with rootCgroup := some (getCurrentCgroup p) })

/-- What happens to a process, as far as hierarchy discovery can tell: a call of
`getRootCgroup`, or a move of the process into another cgroup. -/
inductive ProcessEvent where
  | callGetRootCgroup
  | changeCgroup (target : String)
deriving DecidableEq

/-- Runs the events in order and reports, for every call of `getRootCgroup`, the
value it returned together with what `getCurrentCgroup` returns at that moment. -/
def Process.observe : Process → List ProcessEvent → List (String × String)
  | _, [] => []
  | p, ProcessEvent.callGetRootCgroup :: evs =>
    ((getRootCgroup p).1, getCurrentCgroup p) :: Process.observe (getRootCgroup p).2 evs
  | p, ProcessEvent.changeCgroup target :: evs =>
    Process.observe { p with membership := target } evs

/-! ## A sample kernel -/

/-- A kernel with two cgroups and two jails, in which no destruction request is
refused and none has been made yet. -/
def Kernel.sample : Kernel :=
  { cgroups := [("/sys/fs/cgroup/a", { cpuUser := some 5, cpuSystem := some 7 }),
      ("/sys/fs/cgroup/b", CgroupStats.none)],
    jails := [3, 7],
    refused := [],
    log := [] }

/-- The sample kernel, except that it refuses to destroy the cgroup
`/sys/fs/cgroup/b` (a member process cannot be killed) and to remove jail 7. -/
def Kernel.refusing : Kernel :=
  { Kernel.sample with
    refused := [KernelOp.destroyCgroup "/sys/fs/cgroup/b", KernelOp.jailRemove 7] }

/-! ## Basic facts about the handles -/

theorem AutoDestroyCgroup.isEmpty_iff (h : AutoDestroyCgroup) :
    h.cgroupPath.isEmpty = true ↔ h.IsEmpty := by
  unfold AutoDestroyCgroup.IsEmpty
  exact String.isEmpty_iff h.cgroupPath

theorem AutoDestroyCgroup.operatorBool_iff (h : AutoDestroyCgroup) :
    h.operatorBool = true ↔ h.cgroupPath ≠ "" := by
  unfold AutoDestroyCgroup.operatorBool
  rw [Bool.not_eq_true_eq_eq_false, ← Bool.not_eq_true, String.isEmpty_iff]

theorem AutoDestroyCgroup.owns_iff_path_ne (h : AutoDestroyCgroup) :
    (∃ x, h.Owns x) ↔ h.cgroupPath ≠ "" := by
  constructor
  · rintro ⟨x, hx, rfl⟩
    exact hx
  · intro hne
    exact ⟨h.cgroupPath, hne, rfl⟩

theorem AutoRemoveJail.owns_iff_jid_ne (j : AutoRemoveJail) :
    (∃ x, j.Owns x) ↔ j.jid ≠ INVALID_JAIL := by
  constructor
  · rintro ⟨x, hx, rfl⟩
    exact hx
  · intro hne
    exact ⟨j.jid, hne, rfl⟩

/-! ## Move assignment (C1) -/

/-- C1, as stated, fails: after `B = std::move(A)` with B owning an identifier,
A is not empty. Shown for a cgroup handle B owning `/sys/fs/cgroup/b` and for a
jail handle B owning jail 7. -/
theorem moveAssign_source_not_empty :
    ¬ (AutoDestroyCgroup.moveAssign { cgroupPath := "/sys/fs/cgroup/b" }
          { cgroupPath := "/sys/fs/cgroup/a" }).2.IsEmpty
    ∧ ¬ (AutoRemoveJail.moveAssign { jid := 7 } { jid := 3 }).2.IsEmpty := by
  decide

/-- C1, amended: after `B = std::move(A)` on two distinct handles in any state, B
owns exactly the identifier A owned before and A holds exactly what B held
before (the two are exchanged); so A is empty exactly when B was empty
before the assignment. For both handle classes. -/
theorem moveAssign_exchanges_ownership :
    (∀ A B : AutoDestroyCgroup,
      (B.moveAssign A).1.cgroupPath = A.cgroupPath
      ∧ (∀ x, (B.moveAssign A).1.Owns x ↔ A.Owns x)
      ∧ (∀ x, (B.moveAssign A).2.Owns x ↔ B.Owns x)
      ∧ ((B.moveAssign A).2.IsEmpty ↔ B.IsEmpty))
    ∧ (∀ A B : AutoRemoveJail,
      (B.moveAssign A).1.jid = A.jid
      ∧ (∀ x, (B.moveAssign A).1.Owns x ↔ A.Owns x)
      ∧ (∀ x, (B.moveAssign A).2.Owns x ↔ B.Owns x)
      ∧ ((B.moveAssign A).2.IsEmpty ↔ B.IsEmpty)) := by
  refine ⟨fun A B => ⟨rfl, fun x => Iff.rfl, fun x => Iff.rfl, Iff.rfl⟩,
    fun A B => ⟨rfl, fun x => Iff.rfl, fun x => Iff.rfl, Iff.rfl⟩⟩

/-! ## Move construction (C4) -/

/-- C4: a handle B move-constructed from A owns exactly the identifier A owned
before (B is empty iff A was empty), A is empty afterwards, and the move
performs no kernel operation: in a program, the kernel state (log of
destruction requests included) is the same after a move construction. For
both handle classes. -/
theorem moveCtor_transfers_ownership :
    (∀ A : AutoDestroyCgroup,
      A.moveCtor.1.cgroupPath = A.cgroupPath
      ∧ (∀ x, A.moveCtor.1.Owns x ↔ A.Owns x)
      ∧ (A.moveCtor.1.IsEmpty ↔ A.IsEmpty)
      ∧ A.moveCtor.2.IsEmpty)
    ∧ (∀ (s : CgroupProgram) (src : Nat),
      (s.step (CgroupOp.moveConstruct src)).kernel = s.kernel)
    ∧ (∀ A : AutoRemoveJail,
      A.moveCtor.1.jid = A.jid
      ∧ (∀ x, A.moveCtor.1.Owns x ↔ A.Owns x)
      ∧ (A.moveCtor.1.IsEmpty ↔ A.IsEmpty)
      ∧ A.moveCtor.2.IsEmpty)
    ∧ (∀ (s : JailProgram) (src : Nat),
      (s.step (JailOp.moveConstruct src)).kernel = s.kernel) := by
  refine ⟨fun A => ⟨rfl, fun x => Iff.rfl, Iff.rfl, rfl⟩, ?_,
    fun A => ⟨rfl, fun x => Iff.rfl, Iff.rfl, rfl⟩, ?_⟩
  · intro s src
    simp only [CgroupProgram.step]
    split <;> rfl
  · intro s src
    simp only [JailProgram.step]
    split <;> rfl

/-! ## Conversions (C7, C8) -/

/-- C7: `explicit operator bool` of an `AutoDestroyCgroup` is true exactly when the
handle owns an identifier (its path is not empty), `path()` returns exactly
the owned path, and a default-constructed, a cancelled and a reset handle
convert to false. -/
theorem operatorBool_iff_owns (H : AutoDestroyCgroup) :
    (H.operatorBool = true ↔ ∃ x, H.Owns x)
    ∧ (H.operatorBool = true ↔ H.cgroupPath ≠ "")
    ∧ H.path = H.cgroupPath
    ∧ (∀ x, H.Owns x ↔ (x ≠ "" ∧ H.path = x))
    ∧ AutoDestroyCgroup.defaultCtor.operatorBool = false
    ∧ H.cancel.operatorBool = false
    ∧ (∀ k : Kernel, (H.reset k).1.operatorBool = false) := by
  refine ⟨?_, H.operatorBool_iff, rfl, fun x => Iff.rfl, by decide, rfl, fun k => rfl⟩
  rw [H.operatorBool_iff, H.owns_iff_path_ne]

/-- C8, as stated, fails: the empty jail handle (`jid = INVALID_JAIL = -1`) converts
to `true` through `operator int`, although it owns no jail. -/
theorem jail_bool_conversion_of_empty_handle :
    ¬ (intToBool (AutoRemoveJail.operatorInt { jid := -1 }) = true
        ↔ ({ jid := -1 } : AutoRemoveJail).jid ≠ INVALID_JAIL) := by
  decide

/-- C8, amended: `operator int` returns the raw `jid`, which differs from
`INVALID_JAIL` exactly when the handle owns a jail identifier; converting the
handle to a boolean through `operator int` yields true exactly when `jid` is
not 0, so it does not tell whether the handle owns a jail (an empty handle
converts to true). -/
theorem jail_operatorInt_raw_id (J : AutoRemoveJail) :
    J.operatorInt = J.jid
    ∧ (∀ x, J.Owns x ↔ (x ≠ INVALID_JAIL ∧ J.operatorInt = x))
    ∧ ((∃ x, J.Owns x) ↔ J.operatorInt ≠ INVALID_JAIL)
    ∧ (intToBool J.operatorInt = true ↔ J.jid ≠ 0)
    ∧ (J.IsEmpty → intToBool J.operatorInt = true) := by
  refine ⟨rfl, fun x => Iff.rfl, J.owns_iff_jid_ne, ?_, ?_⟩
  · simp [intToBool, AutoRemoveJail.operatorInt]
  · intro hJ
    have h1 : J.jid = -1 := hJ
    simp [intToBool, AutoRemoveJail.operatorInt, h1]

/-- Witness for C8: the default-constructed jail handle is empty and converts to true. -/
theorem jail_operatorInt_raw_id_witness :
    AutoRemoveJail.defaultCtor.IsEmpty
    ∧ intToBool AutoRemoveJail.defaultCtor.operatorInt = true :=
  ⟨by decide, (jail_operatorInt_raw_id AutoRemoveJail.defaultCtor).2.2.2.2 (by decide)⟩

/-! ## Destruction primitives and the handles that call them -/

theorem destroyCgroup_log (c : String) (k : Kernel) :
    (destroyCgroup c k).2.log = k.log ++ [KernelOp.destroyCgroup c] := by
  unfold destroyCgroup
  dsimp only
  split <;> rfl

theorem jailRemove_log (j : Int) (k : Kernel) :
    (jailRemove j k).2.log = k.log ++ [KernelOp.jailRemove j] := by
  unfold jailRemove
  dsimp only
  split <;> rfl

theorem destroyCgroup_gone (c : String) (k : Kernel)
    (h : KernelOp.destroyCgroup c ∉ k.refused) :
    (destroyCgroup c k).2.hasCgroup c = false := by
  unfold destroyCgroup
  simp [h, Kernel.hasCgroup, List.any_filter]

theorem destroyCgroup_others (c y : String) (k : Kernel) (hy : y ≠ c) :
    (destroyCgroup c k).2.hasCgroup y = k.hasCgroup y := by
  unfold destroyCgroup
  dsimp only
  split
  · rfl
  · simp only [Kernel.hasCgroup, List.any_filter]
    congr 1
    funext e
    by_cases he : e.1 = y
    · have : e.1 ≠ c := fun hc => hy (he.symm.trans hc)
      simp [he, this, hy]
    · simp [he]

theorem destroyCgroup_refused (c y : String) (k : Kernel)
    (h : KernelOp.destroyCgroup c ∈ k.refused) :
    (destroyCgroup c k).2.hasCgroup y = k.hasCgroup y := by
  unfold destroyCgroup
  dsimp only
  rw [if_pos h]
  rfl

theorem jailRemove_refused (j y : Int) (k : Kernel)
    (h : KernelOp.jailRemove j ∈ k.refused) :
    (jailRemove j k).2.hasJail y = k.hasJail y := by
  unfold jailRemove
  dsimp only
  rw [if_pos h]
  rfl

theorem jailRemove_gone (j : Int) (k : Kernel)
    (h : KernelOp.jailRemove j ∉ k.refused) :
    (jailRemove j k).2.hasJail j = false := by
  unfold jailRemove
  simp [h, Kernel.hasJail]

theorem jailRemove_others (j y : Int) (k : Kernel) (hy : y ≠ j) :
    (jailRemove j k).2.hasJail y = k.hasJail y := by
  unfold jailRemove
  dsimp only
  split
  · rfl
  · simp [Kernel.hasJail, hy]

theorem AutoDestroyCgroup.destroy_of_isEmpty (h : AutoDestroyCgroup) (k : Kernel)
    (he : h.IsEmpty) : h.destroy k = (Except.ok CgroupStats.none, h, k) := by
  unfold AutoDestroyCgroup.destroy
  rw [if_pos ((h.isEmpty_iff).2 he)]

theorem AutoDestroyCgroup.destroy_of_not_isEmpty (h : AutoDestroyCgroup) (k : Kernel)
    (he : ¬ h.IsEmpty) :
    h.destroy k
      = ((destroyCgroup h.cgroupPath k).1, { cgroupPath := "" }, (destroyCgroup h.cgroupPath k).2) := by
  unfold AutoDestroyCgroup.destroy
  rw [if_neg (fun hc => he ((h.isEmpty_iff).1 hc))]

theorem AutoDestroyCgroup.destructor_of_isEmpty (h : AutoDestroyCgroup) (k : Kernel)
    (he : h.IsEmpty) : h.destructor k = k := by
  unfold AutoDestroyCgroup.destructor
  rw [if_pos ((h.isEmpty_iff).2 he)]

theorem AutoDestroyCgroup.destructor_of_not_isEmpty (h : AutoDestroyCgroup) (k : Kernel)
    (he : ¬ h.IsEmpty) : h.destructor k = (destroyCgroup h.cgroupPath k).2 := by
  unfold AutoDestroyCgroup.destructor
  rw [if_neg (fun hc => he ((h.isEmpty_iff).1 hc)), h.destroy_of_not_isEmpty k he]

theorem AutoRemoveJail.remove_of_isEmpty (j : AutoRemoveJail) (k : Kernel)
    (he : j.IsEmpty) : j.remove k = (Except.ok (), j, k) := by
  have h1 : j.jid = INVALID_JAIL := he
  unfold AutoRemoveJail.remove
  rw [if_pos h1]

theorem AutoRemoveJail.remove_of_not_isEmpty (j : AutoRemoveJail) (k : Kernel)
    (he : ¬ j.IsEmpty) :
    j.remove k = ((jailRemove j.jid k).1, { jid := INVALID_JAIL }, (jailRemove j.jid k).2) := by
  have h1 : ¬ j.jid = INVALID_JAIL := he
  unfold AutoRemoveJail.remove
  rw [if_neg h1]
  rfl

/-! ## Idempotent destruction (C2) -/

/-- C2: for every handle (owning or empty) and every kernel, the first explicit
`destroy()` / `remove()` leaves the handle empty; a second `destroy()` /
`remove()` and the destructor run afterwards leave the kernel exactly as it was
(no kernel operation) and the second call signals no error; over the whole
sequence at most one destruction request reaches the kernel, and it is for the
identifier the handle held. For both handle classes. -/
theorem destroy_idempotent :
    (∀ (H : AutoDestroyCgroup) (k : Kernel),
      (H.destroy k).2.1.IsEmpty
      ∧ (H.destroy k).2.1.destroy (H.destroy k).2.2
          = (Except.ok CgroupStats.none, (H.destroy k).2.1, (H.destroy k).2.2)
      ∧ (H.destroy k).2.1.destructor (H.destroy k).2.2 = (H.destroy k).2.2
      ∧ ((H.destroy k).2.2.log = k.log
          ∨ (H.destroy k).2.2.log = k.log ++ [KernelOp.destroyCgroup H.cgroupPath]))
    ∧ (∀ (J : AutoRemoveJail) (k : Kernel),
      (J.remove k).2.1.IsEmpty
      ∧ (J.remove k).2.1.remove (J.remove k).2.2
          = (Except.ok (), (J.remove k).2.1, (J.remove k).2.2)
      ∧ (J.remove k).2.1.destructor (J.remove k).2.2 = (J.remove k).2.2
      ∧ ((J.remove k).2.2.log = k.log
          ∨ (J.remove k).2.2.log = k.log ++ [KernelOp.jailRemove J.jid])) := by
  constructor
  · intro H k
    have hE : (H.destroy k).2.1.IsEmpty := by
      by_cases he : H.IsEmpty
      · rw [H.destroy_of_isEmpty k he]; exact he
      · rw [H.destroy_of_not_isEmpty k he]; rfl
    refine ⟨hE, AutoDestroyCgroup.destroy_of_isEmpty _ _ hE,
      AutoDestroyCgroup.destructor_of_isEmpty _ _ hE, ?_⟩
    by_cases he : H.IsEmpty
    · left; rw [H.destroy_of_isEmpty k he]
    · right; rw [H.destroy_of_not_isEmpty k he]; exact destroyCgroup_log _ _
  · intro J k
    have hE : (J.remove k).2.1.IsEmpty := by
      by_cases he : J.IsEmpty
      · rw [J.remove_of_isEmpty k he]; exact he
      · rw [J.remove_of_not_isEmpty k he]; rfl
    refine ⟨hE, AutoRemoveJail.remove_of_isEmpty _ _ hE, ?_, ?_⟩
    · unfold AutoRemoveJail.destructor
      rw [AutoRemoveJail.remove_of_isEmpty _ _ hE]
    · by_cases he : J.IsEmpty
      · left; rw [J.remove_of_isEmpty k he]
      · right; rw [J.remove_of_not_isEmpty k he]; exact jailRemove_log _ _

/-! ## Cancel (C3) -/

/-- C3: for every `AutoDestroyCgroup` H and every kernel, `cancel()` performs no
kernel operation (in a program the kernel state, log included, is the same
after it), leaves H empty (`path()` is the empty path and `operator bool` is
false), and the destructor run afterwards leaves the kernel exactly as it was,
so every cgroup that existed, the one H owned among them, still exists;
`cancel()` on an already empty handle changes nothing. -/
theorem cancel_suppresses_cleanup (H : AutoDestroyCgroup) (k : Kernel) :
    H.cancel.IsEmpty
    ∧ H.cancel.path = ""
    ∧ H.cancel.operatorBool = false
    ∧ (∀ (s : CgroupProgram) (i : Nat), (s.step (CgroupOp.cancel i)).kernel = s.kernel)
    ∧ H.cancel.destructor k = k
    ∧ (∀ X, H.Owns X → k.hasCgroup X = true → (H.cancel.destructor k).hasCgroup X = true)
    ∧ (H.IsEmpty → H.cancel = H) := by
  have hE : H.cancel.IsEmpty := rfl
  have hD : H.cancel.destructor k = k := AutoDestroyCgroup.destructor_of_isEmpty _ _ hE
  refine ⟨hE, rfl, rfl, ?_, hD, ?_, ?_⟩
  · intro s i
    simp only [CgroupProgram.step]
    split <;> rfl
  · intro X _ hX
    rw [hD]; exact hX
  · intro he
    cases H with
    | mk p =>
      have hp : p = "" := he
      subst hp
      rfl

/-- Witness for C3: a handle owning `/sys/fs/cgroup/a`, cancelled and then destroyed
on the sample kernel: the cgroup still exists. -/
theorem cancel_suppresses_cleanup_witness :
    AutoDestroyCgroup.Owns { cgroupPath := "/sys/fs/cgroup/a" } "/sys/fs/cgroup/a"
    ∧ Kernel.sample.hasCgroup "/sys/fs/cgroup/a" = true
    ∧ ((AutoDestroyCgroup.cancel { cgroupPath := "/sys/fs/cgroup/a" }).destructor
        Kernel.sample).hasCgroup "/sys/fs/cgroup/a" = true :=
  ⟨by decide, by decide,
    (cancel_suppresses_cleanup { cgroupPath := "/sys/fs/cgroup/a" } Kernel.sample).2.2.2.2.2.1
      "/sys/fs/cgroup/a" (by decide) (by decide)⟩

/-! ## Reset (C5) -/

/-- C5, as stated, fails: `reset()` on a handle owning `/sys/fs/cgroup/a` makes one
destruction request for that cgroup (from the destructor of the temporary), and
the cgroup, which existed before, no longer exists afterwards. -/
theorem reset_destroys_owned_cgroup :
    (AutoDestroyCgroup.reset { cgroupPath := "/sys/fs/cgroup/a" } Kernel.sample).2.log
        = [KernelOp.destroyCgroup "/sys/fs/cgroup/a"]
    ∧ Kernel.sample.hasCgroup "/sys/fs/cgroup/a" = true
    ∧ (AutoDestroyCgroup.reset { cgroupPath := "/sys/fs/cgroup/a" } Kernel.sample).2.hasCgroup
        "/sys/fs/cgroup/a" = false := by
  decide

/-- C5, amended: for every `AutoDestroyCgroup` H, `reset()` leaves H in the state of
a default-constructed handle; when H owns a path X the temporary that `reset()`
assigns from takes X over and its destructor makes exactly one destruction
request, for X, with errors suppressed (X no longer exists afterwards unless
the kernel refuses); when H is empty no kernel operation is performed. -/
theorem reset_assigns_default_and_cleans_up (H : AutoDestroyCgroup) (k : Kernel) :
    (H.reset k).1 = AutoDestroyCgroup.defaultCtor
    ∧ (H.IsEmpty → (H.reset k).2 = k)
    ∧ (∀ X, H.Owns X →
        (H.reset k).2 = (destroyCgroup X k).2
        ∧ (H.reset k).2.log = k.log ++ [KernelOp.destroyCgroup X]
        ∧ (KernelOp.destroyCgroup X ∉ k.refused → (H.reset k).2.hasCgroup X = false)) := by
  refine ⟨rfl, ?_, ?_⟩
  · intro he
    exact AutoDestroyCgroup.destructor_of_isEmpty _ k he
  · rintro X ⟨hX, rfl⟩
    have hR : (H.reset k).2 = (destroyCgroup H.cgroupPath k).2 :=
      AutoDestroyCgroup.destructor_of_not_isEmpty (AutoDestroyCgroup.moveAssign H
        AutoDestroyCgroup.defaultCtor).2 k hX
    refine ⟨hR, ?_, ?_⟩
    · rw [hR]; exact destroyCgroup_log _ _
    · intro hr
      rw [hR]; exact destroyCgroup_gone _ _ hr

/-- Witness for C5: a handle owning `/sys/fs/cgroup/b`, reset on the sample kernel. -/
theorem reset_assigns_default_and_cleans_up_witness :
    AutoDestroyCgroup.Owns { cgroupPath := "/sys/fs/cgroup/b" } "/sys/fs/cgroup/b"
    ∧ (AutoDestroyCgroup.reset { cgroupPath := "/sys/fs/cgroup/b" } Kernel.sample).2.log
        = Kernel.sample.log ++ [KernelOp.destroyCgroup "/sys/fs/cgroup/b"] :=
  ⟨by decide,
    ((reset_assigns_default_and_cleans_up { cgroupPath := "/sys/fs/cgroup/b" }
      Kernel.sample).2.2 "/sys/fs/cgroup/b" (by decide)).2.1⟩

/-! ## Move assignment cleans up the previous resource of the target (C6) -/

/-- C6, as stated, fails: when the kernel refuses the destruction request, X has not
been destroyed. B owns `/sys/fs/cgroup/b` (resp. jail 7), A owns
`/sys/fs/cgroup/a` (resp. jail 3); after `B = std::move(A)` and the destructor
of A, on a kernel that refuses to destroy `/sys/fs/cgroup/b` and jail 7, one
request was made and suppressed, and the cgroup and the jail still exist. -/
theorem moveAssign_refused_cleanup_leaves_resource :
    (AutoDestroyCgroup.Owns { cgroupPath := "/sys/fs/cgroup/b" } "/sys/fs/cgroup/b"
      ∧ ({ cgroupPath := "/sys/fs/cgroup/a" } : AutoDestroyCgroup).cgroupPath
          ≠ "/sys/fs/cgroup/b"
      ∧ ((AutoDestroyCgroup.moveAssign { cgroupPath := "/sys/fs/cgroup/b" }
            { cgroupPath := "/sys/fs/cgroup/a" }).2.destructor Kernel.refusing).log
          = [KernelOp.destroyCgroup "/sys/fs/cgroup/b"]
      ∧ ((AutoDestroyCgroup.moveAssign { cgroupPath := "/sys/fs/cgroup/b" }
            { cgroupPath := "/sys/fs/cgroup/a" }).2.destructor Kernel.refusing).hasCgroup
          "/sys/fs/cgroup/b" = true)
    ∧ (AutoRemoveJail.Owns { jid := 7 } 7
      ∧ ({ jid := 3 } : AutoRemoveJail).jid ≠ 7
      ∧ ((AutoRemoveJail.moveAssign { jid := 7 } { jid := 3 }).2.destructor
            Kernel.refusing).log = [KernelOp.jailRemove 7]
      ∧ ((AutoRemoveJail.moveAssign { jid := 7 } { jid := 3 }).2.destructor
            Kernel.refusing).hasJail 7 = true) := by
  decide

/-- C6, amended: for every handle B owning an identifier X and every handle A holding
a different identifier Y or nothing, after `B = std::move(A)` followed by the
end of the lifetime of A (its destructor), exactly one destruction request has
been added to the kernel log and it is for X (so none for Y), with any error
suppressed; X no longer exists when the kernel carries the request out, and
exists exactly when it did before when the kernel refuses it; every other
resource exists exactly when it did before, and B owns what A held. For both
handle classes. -/
theorem moveAssign_cleans_up_previous :
    (∀ (A B : AutoDestroyCgroup) (k : Kernel) (X : String),
      B.Owns X → A.cgroupPath ≠ X →
        ((B.moveAssign A).2.destructor k).log = k.log ++ [KernelOp.destroyCgroup X]
        ∧ (KernelOp.destroyCgroup X ∉ k.refused →
            ((B.moveAssign A).2.destructor k).hasCgroup X = false)
        ∧ (KernelOp.destroyCgroup X ∈ k.refused →
            ((B.moveAssign A).2.destructor k).hasCgroup X = k.hasCgroup X)
        ∧ (∀ Y, Y ≠ X → ((B.moveAssign A).2.destructor k).hasCgroup Y = k.hasCgroup Y)
        ∧ (B.moveAssign A).1.cgroupPath = A.cgroupPath
        ∧ (∀ Y, A.Owns Y → (B.moveAssign A).1.Owns Y))
    ∧ (∀ (A B : AutoRemoveJail) (k : Kernel) (X : Int),
      B.Owns X → A.jid ≠ X →
        ((B.moveAssign A).2.destructor k).log = k.log ++ [KernelOp.jailRemove X]
        ∧ (KernelOp.jailRemove X ∉ k.refused →
            ((B.moveAssign A).2.destructor k).hasJail X = false)
        ∧ (KernelOp.jailRemove X ∈ k.refused →
            ((B.moveAssign A).2.destructor k).hasJail X = k.hasJail X)
        ∧ (∀ Y, Y ≠ X → ((B.moveAssign A).2.destructor k).hasJail Y = k.hasJail Y)
        ∧ (B.moveAssign A).1.jid = A.jid
        ∧ (∀ Y, A.Owns Y → (B.moveAssign A).1.Owns Y)) := by
  constructor
  · rintro A B k X ⟨hX, rfl⟩ _
    have hD : (B.moveAssign A).2.destructor k = (destroyCgroup B.cgroupPath k).2 :=
      AutoDestroyCgroup.destructor_of_not_isEmpty (B.moveAssign A).2 k hX
    rw [hD]
    exact ⟨destroyCgroup_log _ _, destroyCgroup_gone _ _, destroyCgroup_refused _ _ _,
      fun Y hY => destroyCgroup_others _ _ _ hY, rfl, fun Y hY => hY⟩
  · rintro A B k X ⟨hX, rfl⟩ _
    have hD : (B.moveAssign A).2.destructor k = (jailRemove B.jid k).2 := by
      unfold AutoRemoveJail.destructor
      rw [AutoRemoveJail.remove_of_not_isEmpty (B.moveAssign A).2 k hX]
      rfl
    rw [hD]
    exact ⟨jailRemove_log _ _, jailRemove_gone _ _, jailRemove_refused _ _ _,
      fun Y hY => jailRemove_others _ _ _ hY, rfl, fun Y hY => hY⟩

/-- Witness for C6: B owns `/sys/fs/cgroup/b`, A owns `/sys/fs/cgroup/a`, and B owns
jail 7, A owns jail 3, on the sample kernel. -/
theorem moveAssign_cleans_up_previous_witness :
    (AutoDestroyCgroup.Owns { cgroupPath := "/sys/fs/cgroup/b" } "/sys/fs/cgroup/b"
      ∧ ({ cgroupPath := "/sys/fs/cgroup/a" } : AutoDestroyCgroup).cgroupPath
          ≠ "/sys/fs/cgroup/b"
      ∧ ((AutoDestroyCgroup.moveAssign { cgroupPath := "/sys/fs/cgroup/b" }
            { cgroupPath := "/sys/fs/cgroup/a" }).2.destructor Kernel.sample).log
          = Kernel.sample.log ++ [KernelOp.destroyCgroup "/sys/fs/cgroup/b"])
    ∧ (AutoRemoveJail.Owns { jid := 7 } 7
      ∧ ({ jid := 3 } : AutoRemoveJail).jid ≠ 7
      ∧ ((AutoRemoveJail.moveAssign { jid := 7 } { jid := 3 }).2.destructor Kernel.sample).log
          = Kernel.sample.log ++ [KernelOp.jailRemove 7]) :=
  ⟨⟨by decide, by decide,
      (moveAssign_cleans_up_previous.1 { cgroupPath := "/sys/fs/cgroup/a" }
        { cgroupPath := "/sys/fs/cgroup/b" } Kernel.sample "/sys/fs/cgroup/b"
        (by decide) (by decide)).1⟩,
    ⟨by decide, by decide,
      (moveAssign_cleans_up_previous.2 { jid := 3 } { jid := 7 } Kernel.sample 7
        (by decide) (by decide)).1⟩⟩

/-! ## Counting owned identifiers -/

theorem count_set_le_of_ne {ι : Type} [DecidableEq ι] (l : List ι) (i : Nat) (e x : ι)
    (hx : x ≠ e) : (l.set i e).count x ≤ l.count x := by
  by_cases hi : i < l.length
  · rw [List.count_set e x l i hi]
    have h0 : (e == x) = false := by
      rw [beq_eq_false_iff_ne]; exact fun h => hx h.symm
    simp only [h0]
    split <;> simp
  · rw [List.set_eq_of_length_le (not_lt.1 hi)]

theorem count_set_set_exchange {ι : Type} [DecidableEq ι] (l : List ι) (i j : Nat) (a b x : ι)
    (ha : l[i]? = some a) (hb : l[j]? = some b) :
    ((l.set i b).set j a).count x = l.count x := by
  obtain ⟨hi, hai⟩ := List.getElem?_eq_some.1 ha
  obtain ⟨hj, hbj⟩ := List.getElem?_eq_some.1 hb
  have hj2 : j < (l.set i b).length := by simpa using hj
  rw [List.count_set a x (l.set i b) j hj2, List.count_set b x l i hi]
  have h1 : (l.set i b)[j] = b := by
    rw [List.getElem_set]
    split
    · rfl
    · exact hbj
  rw [h1, hai]
  have hmem : a ∈ l := hai ▸ List.getElem_mem hi
  have hpos : (a == x) = true → 0 < l.count x := by
    intro h
    have : a = x := by simpa using h
    subst this
    exact List.count_pos_iff.2 hmem
  by_cases hax : (a == x) = true <;> by_cases hbx : (b == x) = true
  · have := hpos hax
    simp only [hax, hbx, if_true]
    omega
  · have := hpos hax
    simp only [hax, hbx, if_true]
    simp
    omega
  · simp only [hax, hbx, if_true]
    simp
  · simp only [hax, hbx]
    simp

theorem count_set_append_moved {ι : Type} [DecidableEq ι] (l : List ι) (i : Nat) (a e x : ι)
    (ha : l[i]? = some a) (hx : x ≠ e) :
    (l.set i e ++ [a]).count x = l.count x := by
  obtain ⟨hi, hai⟩ := List.getElem?_eq_some.1 ha
  rw [List.count_append, List.count_set e x l i hi, hai]
  have h0 : (e == x) = false := by
    rw [beq_eq_false_iff_ne]; exact fun h => hx h.symm
  have hmem : a ∈ l := hai ▸ List.getElem_mem hi
  by_cases hax : a = x
  · subst hax
    have : 0 < l.count a := List.count_pos_iff.2 hmem
    simp [h0]
    omega
  · have h1 : (a == x) = false := by rw [beq_eq_false_iff_ne]; exact hax
    simp [h0, h1, List.count_singleton, hax]

theorem count_filter_ne {ι : Type} [DecidableEq ι] (m : List ι) (e x : ι) (hx : x ≠ e) :
    (m.filter (fun y => y ≠ e)).count x = m.count x := by
  apply List.count_filter
  simpa using hx

theorem owned_of_count_le {ι : Type} [DecidableEq ι] (m n : List ι) (e : ι)
    (hle : ∀ x, x ≠ e → n.count x ≤ m.count x)
    (hm : (m.filter (fun y => y ≠ e)).Nodup) :
    (n.filter (fun y => y ≠ e)).Nodup
    ∧ ∀ x ∈ n.filter (fun y => y ≠ e), x ∈ m.filter (fun y => y ≠ e) := by
  constructor
  · rw [List.nodup_iff_count_le_one] at hm ⊢
    intro x
    by_cases hx : x = e
    · subst hx
      have : x ∉ n.filter (fun y => y ≠ x) := by simp
      rw [List.count_eq_zero_of_not_mem this]
      exact Nat.zero_le 1
    · rw [count_filter_ne n e x hx]
      have h1 := hm x
      rw [count_filter_ne m e x hx] at h1
      exact (hle x hx).trans h1
  · intro x hxn
    have hx : x ≠ e := by simpa using (List.mem_filter.1 hxn).2
    have h1 : 0 < (n.filter (fun y => y ≠ e)).count x := List.count_pos_iff.2 hxn
    rw [count_filter_ne n e x hx] at h1
    have h2 : 0 < m.count x := lt_of_lt_of_le h1 (hle x hx)
    rw [← count_filter_ne m e x hx] at h2
    exact List.count_pos_iff.1 h2

theorem index_unique_of_owned_nodup {η ι : Type} [DecidableEq ι] (f : η → ι) (e : ι)
    (hs : List η) (hnd : ((hs.map f).filter (fun y => y ≠ e)).Nodup)
    (i j : Nat) (a b : η) (ha : hs[i]? = some a) (hb : hs[j]? = some b)
    (hab : f a = f b) (hne : f a ≠ e) : i = j := by
  have hp : hs.Pairwise (fun u v => f u ≠ e → f v ≠ e → f u ≠ f v) := by
    have h1 := hnd
    unfold List.Nodup at h1
    rw [List.pairwise_filter, List.pairwise_map] at h1
    refine h1.imp ?_
    intro u v huv hu hv
    exact huv (by simpa using hu) (by simpa using hv)
  obtain ⟨hi, hai⟩ := List.getElem?_eq_some.1 ha
  obtain ⟨hj, hbj⟩ := List.getElem?_eq_some.1 hb
  rw [List.pairwise_iff_getElem] at hp
  rcases Nat.lt_trichotomy i j with hlt | heq | hgt
  · exact absurd (hai ▸ hbj ▸ hab) (hp i j hi hj hlt (hai ▸ hne) (hbj ▸ hab ▸ hne))
  · exact heq
  · exact absurd (hai ▸ hbj ▸ hab).symm (hp j i hj hi hgt (hbj ▸ hab ▸ hne) (hai ▸ hne))

/-! ## Exclusive responsibility (C9) -/

theorem CgroupProgram.step_path_count_le (s : CgroupProgram) (op : CgroupOp) (x : String)
    (hx : x ≠ "") :
    ((s.step op).handles.map (fun h => h.cgroupPath)).count x
      ≤ (s.handles.map (fun h => h.cgroupPath)).count x := by
  have key : ∀ (i : Nat) (a : AutoDestroyCgroup), s.handles[i]? = some a →
      (s.handles.map (fun h => h.cgroupPath))[i]? = some a.cgroupPath := by
    intro i a h
    rw [List.getElem?_map, h]; rfl
  cases op with
  | moveConstruct src =>
    simp only [CgroupProgram.step]
    split
    · next a ha =>
      simp only [List.map_append, List.map_set, List.map_cons, List.map_nil]
      exact le_of_eq (count_set_append_moved _ src a.cgroupPath "" x (key src a ha) hx)
    · exact le_rfl
  | moveAssign dst src =>
    simp only [CgroupProgram.step]
    split
    · next b a hb ha =>
      simp only [List.map_set]
      exact le_of_eq (count_set_set_exchange _ dst src b.cgroupPath a.cgroupPath x
        (key dst b hb) (key src a ha))
    · exact le_rfl
  | swap i j =>
    simp only [CgroupProgram.step]
    split
    · next a b ha hb =>
      simp only [List.map_set]
      exact le_of_eq (count_set_set_exchange _ i j a.cgroupPath b.cgroupPath x
        (key i a ha) (key j b hb))
    · exact le_rfl
  | cancel i =>
    simp only [CgroupProgram.step]
    split
    · simp only [List.map_set]
      exact count_set_le_of_ne _ i "" x hx
    · exact le_rfl
  | reset i =>
    simp only [CgroupProgram.step]
    split
    · simp only [List.map_set]
      exact count_set_le_of_ne _ i "" x hx
    · exact le_rfl

theorem CgroupProgram.run_path_count_le (ops : List CgroupOp) (s : CgroupProgram) (x : String)
    (hx : x ≠ "") :
    ((s.run ops).handles.map (fun h => h.cgroupPath)).count x
      ≤ (s.handles.map (fun h => h.cgroupPath)).count x := by
  induction ops generalizing s with
  | nil => exact le_rfl
  | cons op ops ih =>
    have h1 : s.run (op :: ops) = (s.step op).run ops := rfl
    rw [h1]
    exact (ih (s.step op)).trans (s.step_path_count_le op x hx)

theorem JailProgram.step_jid_count_le (s : JailProgram) (op : JailOp) (x : Int)
    (hx : x ≠ INVALID_JAIL) :
    ((s.step op).handles.map (fun h => h.jid)).count x
      ≤ (s.handles.map (fun h => h.jid)).count x := by
  have key : ∀ (i : Nat) (a : AutoRemoveJail), s.handles[i]? = some a →
      (s.handles.map (fun h => h.jid))[i]? = some a.jid := by
    intro i a h
    rw [List.getElem?_map, h]; rfl
  cases op with
  | moveConstruct src =>
    simp only [JailProgram.step]
    split
    · next a ha =>
      simp only [List.map_append, List.map_set, List.map_cons, List.map_nil]
      exact le_of_eq (count_set_append_moved _ src a.jid INVALID_JAIL x (key src a ha) hx)
    · exact le_rfl
  | moveAssign dst src =>
    simp only [JailProgram.step]
    split
    · next b a hb ha =>
      simp only [List.map_set]
      exact le_of_eq (count_set_set_exchange _ dst src b.jid a.jid x
        (key dst b hb) (key src a ha))
    · exact le_rfl
  | swap i j =>
    simp only [JailProgram.step]
    split
    · next a b ha hb =>
      simp only [List.map_set]
      exact le_of_eq (count_set_set_exchange _ i j a.jid b.jid x
        (key i a ha) (key j b hb))
    · exact le_rfl
  | cancel i =>
    simp only [JailProgram.step]
    split
    · simp only [List.map_set]
      exact count_set_le_of_ne _ i INVALID_JAIL x hx
    · exact le_rfl

theorem JailProgram.run_jid_count_le (ops : List JailOp) (s : JailProgram) (x : Int)
    (hx : x ≠ INVALID_JAIL) :
    ((s.run ops).handles.map (fun h => h.jid)).count x
      ≤ (s.handles.map (fun h => h.jid)).count x := by
  induction ops generalizing s with
  | nil => exact le_rfl
  | cons op ops ih =>
    have h1 : s.run (op :: ops) = (s.step op).run ops := rfl
    rw [h1]
    exact (ih (s.step op)).trans (s.step_jid_count_le op x hx)

theorem ownedCgroups_mem (hs : List AutoDestroyCgroup) (x : String) :
    x ∈ ownedCgroups hs ↔ ∃ b ∈ hs, b.Owns x := by
  unfold ownedCgroups AutoDestroyCgroup.Owns
  simp only [List.mem_filter, List.mem_map, decide_eq_true_eq]
  constructor
  · rintro ⟨⟨b, hb, rfl⟩, hx⟩
    exact ⟨b, hb, hx, rfl⟩
  · rintro ⟨b, hb, hx, rfl⟩
    exact ⟨⟨b, hb, rfl⟩, hx⟩

theorem ownedJails_mem (hs : List AutoRemoveJail) (x : Int) :
    x ∈ ownedJails hs ↔ ∃ b ∈ hs, b.Owns x := by
  unfold ownedJails AutoRemoveJail.Owns
  simp only [List.mem_filter, List.mem_map, decide_eq_true_eq]
  constructor
  · rintro ⟨⟨b, hb, rfl⟩, hx⟩
    exact ⟨b, hb, hx, rfl⟩
  · rintro ⟨b, hb, hx, rfl⟩
    exact ⟨⟨b, hb, rfl⟩, hx⟩

/-- C9: for every finite list of live handles whose owned identifiers are pairwise
distinct (empty handles allowed) and every sequence of move constructions, move
assignments, swaps, `cancel()` and `reset()` among them, afterwards the owned
identifiers are still pairwise distinct, no identifier is owned by handles at
two different positions, and every identifier owned at the end was owned by
some handle at the start. For both handle classes (`AutoRemoveJail` has no
`reset()`). -/
theorem exclusive_ownership_invariant :
    (∀ (hs : List AutoDestroyCgroup) (k : Kernel) (ops : List CgroupOp),
      (ownedCgroups hs).Nodup →
        (ownedCgroups (CgroupProgram.run { handles := hs, kernel := k } ops).handles).Nodup
        ∧ (∀ (i j : Nat) (a b : AutoDestroyCgroup) (x : String),
            (CgroupProgram.run { handles := hs, kernel := k } ops).handles[i]? = some a →
            (CgroupProgram.run { handles := hs, kernel := k } ops).handles[j]? = some b →
            a.Owns x → b.Owns x → i = j)
        ∧ (∀ a ∈ (CgroupProgram.run { handles := hs, kernel := k } ops).handles,
            ∀ x, a.Owns x → ∃ b ∈ hs, b.Owns x))
    ∧ (∀ (hs : List AutoRemoveJail) (k : Kernel) (ops : List JailOp),
      (ownedJails hs).Nodup →
        (ownedJails (JailProgram.run { handles := hs, kernel := k } ops).handles).Nodup
        ∧ (∀ (i j : Nat) (a b : AutoRemoveJail) (x : Int),
            (JailProgram.run { handles := hs, kernel := k } ops).handles[i]? = some a →
            (JailProgram.run { handles := hs, kernel := k } ops).handles[j]? = some b →
            a.Owns x → b.Owns x → i = j)
        ∧ (∀ a ∈ (JailProgram.run { handles := hs, kernel := k } ops).handles,
            ∀ x, a.Owns x → ∃ b ∈ hs, b.Owns x)) := by
  constructor
  · intro hs k ops hnd
    have hle := fun x hx =>
      CgroupProgram.run_path_count_le ops { handles := hs, kernel := k } x hx
    obtain ⟨h1, h2⟩ := owned_of_count_le _ _ "" hle hnd
    refine ⟨h1, ?_, ?_⟩
    · rintro i j a b x ha hb ⟨hx, hax⟩ ⟨_, hbx⟩
      exact index_unique_of_owned_nodup (fun h => h.cgroupPath) "" _ h1 i j a b ha hb
        (hax.trans hbx.symm) (fun hc => hx (hax.symm.trans hc))
    · intro a ha x hax
      exact (ownedCgroups_mem hs x).1 (h2 x ((ownedCgroups_mem _ x).2 ⟨a, ha, hax⟩))
  · intro hs k ops hnd
    have hle := fun x hx =>
      JailProgram.run_jid_count_le ops { handles := hs, kernel := k } x hx
    obtain ⟨h1, h2⟩ := owned_of_count_le _ _ INVALID_JAIL hle hnd
    refine ⟨h1, ?_, ?_⟩
    · rintro i j a b x ha hb ⟨hx, hax⟩ ⟨_, hbx⟩
      exact index_unique_of_owned_nodup (fun h => h.jid) INVALID_JAIL _ h1 i j a b ha hb
        (hax.trans hbx.symm) (fun hc => hx (hax.symm.trans hc))
    · intro a ha x hax
      exact (ownedJails_mem hs x).1 (h2 x ((ownedJails_mem _ x).2 ⟨a, ha, hax⟩))

/-- Witness for C9: three cgroup handles (one of them empty) under a move assignment,
a move construction, a reset, a swap and a cancel; and three jail handles (one
of them empty) under a move construction, a move assignment, a swap and a
cancel. -/
theorem exclusive_ownership_invariant_witness :
    ((ownedCgroups [{ cgroupPath := "/sys/fs/cgroup/a" }, { cgroupPath := "" },
          { cgroupPath := "/sys/fs/cgroup/b" }]).Nodup
      ∧ (ownedCgroups (CgroupProgram.run
          { handles := [{ cgroupPath := "/sys/fs/cgroup/a" }, { cgroupPath := "" },
              { cgroupPath := "/sys/fs/cgroup/b" }],
            kernel := Kernel.sample }
          [CgroupOp.moveAssign 0 2, CgroupOp.moveConstruct 0, CgroupOp.reset 2,
            CgroupOp.swap 1 3, CgroupOp.cancel 0]).handles).Nodup)
    ∧ ((ownedJails [{ jid := 3 }, { jid := -1 }, { jid := 7 }]).Nodup
      ∧ (ownedJails (JailProgram.run
          { handles := [{ jid := 3 }, { jid := -1 }, { jid := 7 }], kernel := Kernel.sample }
          [JailOp.moveConstruct 2, JailOp.moveAssign 1 0, JailOp.swap 0 3,
            JailOp.cancel 1]).handles).Nodup) :=
  ⟨⟨by decide,
      (exclusive_ownership_invariant.1
        [{ cgroupPath := "/sys/fs/cgroup/a" }, { cgroupPath := "" },
          { cgroupPath := "/sys/fs/cgroup/b" }]
        Kernel.sample
        [CgroupOp.moveAssign 0 2, CgroupOp.moveConstruct 0, CgroupOp.reset 2,
          CgroupOp.swap 1 3, CgroupOp.cancel 0]
        (by decide)).1⟩,
    ⟨by decide,
      (exclusive_ownership_invariant.2 [{ jid := 3 }, { jid := -1 }, { jid := 7 }]
        Kernel.sample
        [JailOp.moveConstruct 2, JailOp.moveAssign 1 0, JailOp.swap 0 3, JailOp.cancel 1]
        (by decide)).1⟩⟩

/-! ## Root caching (C10) -/

theorem Process.observe_cached (evs : List ProcessEvent) (p : Process) (root : String)
    (hp : p.rootCgroup = some root) :
    ∀ e ∈ p.observe evs, e.1 = root := by
  induction evs generalizing p with
  | nil =>
    intro e he
    simp [Process.observe] at he
  | cons ev evs ih =>
    cases ev with
    | callGetRootCgroup =>
      have hg : getRootCgroup p = (root, p) := by
        unfold getRootCgroup
        rw [hp]
      intro e he
      simp only [Process.observe, hg, List.mem_cons] at he
      rcases he with rfl | he
      · rfl
      · exact ih p hp e he
    | changeCgroup target =>
      intro e he
      simp only [Process.observe] at he
      exact ih { p with membership := target } hp e he

theorem Process.observe_fresh (evs : List ProcessEvent) (p : Process)
    (hp : p.rootCgroup = none) (first : String × String) (rest : List (String × String))
    (h : p.observe evs = first :: rest) :
    first.1 = first.2 ∧ ∀ e ∈ rest, e.1 = first.1 := by
  induction evs generalizing p with
  | nil => simp [Process.observe] at h
  | cons ev evs ih =>
    cases ev with
    | callGetRootCgroup =>
      have hg : getRootCgroup p
          = (getCurrentCgroup p, { p with rootCgroup := some (getCurrentCgroup p) }) := by
        unfold getRootCgroup
        rw [hp]
      simp only [Process.observe, hg, List.cons.injEq] at h
      obtain ⟨rfl, rfl⟩ := h
      exact ⟨rfl, Process.observe_cached evs _ _ rfl⟩
    | changeCgroup target =>
      simp only [Process.observe] at h
      exact ih { p with membership := target } hp h

/-- C10: in every sequence of `getRootCgroup` calls interleaved with arbitrary
changes of the current cgroup of the process, started before any call was made,
the first call returns what `getCurrentCgroup` returns at that moment and every
later call returns that same value, whatever `getCurrentCgroup` returns by then. -/
theorem getRootCgroup_stable (membership : String) (evs : List ProcessEvent)
    (first : String × String) (rest : List (String × String))
    (h : (Process.start membership).observe evs = first :: rest) :
    first.1 = first.2 ∧ ∀ e ∈ rest, e.1 = first.1 :=
  Process.observe_fresh evs (Process.start membership) rfl first rest h

/-- Witness for C10: the process moves from `/a` to `/b`, asks for the root, moves
to `/b/sandbox` and asks again: both answers are `/b`. -/
theorem getRootCgroup_stable_witness :
    (Process.start "/a").observe
        [ProcessEvent.changeCgroup "/b", ProcessEvent.callGetRootCgroup,
          ProcessEvent.changeCgroup "/b/sandbox", ProcessEvent.callGetRootCgroup]
      = [("/b", "/b"), ("/b", "/b/sandbox")]
    ∧ (("/b", "/b") : String × String).1 = (("/b", "/b") : String × String).2
    ∧ ∀ e ∈ [(("/b", "/b/sandbox") : String × String)], e.1 = "/b" :=
  ⟨by decide,
    getRootCgroup_stable "/a"
      [ProcessEvent.changeCgroup "/b", ProcessEvent.callGetRootCgroup,
        ProcessEvent.changeCgroup "/b/sandbox", ProcessEvent.callGetRootCgroup]
      ("/b", "/b") [("/b", "/b/sandbox")] (by decide)⟩

end Nix
